import Mathlib

/-!
Verification of the lock acquisition/release protocol in
`src/lib/lock-protocol.js` (a ZooKeeper-style distributed lock).

The JavaScript module is shallowly embedded: every store callback of the
source (`lockAcquired`, `lockFailed`, `m.unlock`, the `getChildren`
callback, the `exists` callback, the retry timer and the TTL timer) becomes
a pure Lean function from the mutable context object `ctx` plus the store's
response to a `Step` (the continuation the callback invokes) or to a trace
of observable `Event`s (store calls, callback invocations, emitted events).
JavaScript `undefined`-able fields are `Option`s; the JS truthiness tests of
the source (`if (!ctx.maxRetryCount)`, `ctx.collisionCount || 0`) are
modelled explicitly.
-/

namespace LockProtocol

/-- Comparison of two code-unit sequences, as performed by the default
comparator of JavaScript `Array.prototype.sort` on strings: lexicographic
order on the code units, a proper prefix sorting before its extensions. -/
def jsLtL : List Char → List Char → Bool
  | _, [] => false
  | [], _ :: _ => true
  | a :: as, b :: bs =>
    if a.toNat < b.toNat then true
    else if b.toNat < a.toNat then false
    else jsLtL as bs

/-- Strict string order used by the JS sort, on Lean strings. -/
def jsLt (a b : String) : Bool :=
  jsLtL a.data b.data

/-- Reflexive string order of the JS sort: `a` sorts no later than `b`. -/
def jsLe (a b : String) : Bool :=
  ! jsLt b a

theorem char_toNat_inj {a b : Char} (h : a.toNat = b.toNat) : a = b := by
  apply Char.ext
  apply UInt32.ext
  simpa [Char.toNat, UInt32.toNat] using h

theorem jsLtL_nil (l : List Char) : jsLtL l [] = false := by
  cases l <;> rfl

theorem jsLtL_irrefl : ∀ l, jsLtL l l = false
  | [] => rfl
  | a :: as => by simp [jsLtL, jsLtL_irrefl as]

theorem jsLtL_trans :
    ∀ a b c, jsLtL a b = true → jsLtL b c = true → jsLtL a c = true
  | a, b, [], _, h2 => by rw [jsLtL_nil] at h2; exact absurd h2 (by simp)
  | [], _ :: _, _ :: _, _, _ => rfl
  | [], [], _ :: _, h1, _ => by
      rw [jsLtL_nil] at h1; exact absurd h1 (by simp)
  | _ :: _, [], _ :: _, h1, _ => by
      rw [jsLtL_nil] at h1; exact absurd h1 (by simp)
  | a :: as, b :: bs, c :: cs, h1, h2 => by
      simp only [jsLtL] at h1 h2 ⊢
      by_cases hab : a.toNat < b.toNat
      · by_cases hbc : b.toNat < c.toNat
        · have hac : a.toNat < c.toNat := Nat.lt_trans hab hbc
          simp [hac]
        · simp only [hab, if_true] at h1
          simp only [hbc, if_false] at h2
          by_cases hcb : c.toNat < b.toNat
          · simp [hcb] at h2
          · have hac : a.toNat < c.toNat := by omega
            simp [hac]
      · simp only [hab, if_false] at h1
        by_cases hba : b.toNat < a.toNat
        · simp [hba] at h1
        · simp only [hba, if_false] at h1
          have heq : a.toNat = b.toNat := by omega
          by_cases hbc : b.toNat < c.toNat
          · have hac : a.toNat < c.toNat := by omega
            simp [hac]
          · simp only [hbc, if_false] at h2
            by_cases hcb : c.toNat < b.toNat
            · simp [hcb] at h2
            · simp only [hcb, if_false] at h2
              have hac : ¬ a.toNat < c.toNat := by omega
              have hca : ¬ c.toNat < a.toNat := by omega
              simp only [hac, if_false, hca]
              exact jsLtL_trans as bs cs h1 h2

theorem jsLtL_trichotomy :
    ∀ a b, jsLtL a b = true ∨ a = b ∨ jsLtL b a = true
  | [], [] => Or.inr (Or.inl rfl)
  | [], _ :: _ => Or.inl rfl
  | _ :: _, [] => Or.inr (Or.inr rfl)
  | a :: as, b :: bs => by
      rcases Nat.lt_trichotomy a.toNat b.toNat with h | h | h
      · left; simp [jsLtL, h]
      · have hab : a = b := char_toNat_inj h
        rcases jsLtL_trichotomy as bs with h1 | h1 | h1
        · left; simp [jsLtL, h.symm ▸ Nat.lt_irrefl b.toNat, hab, h1]
        · right; left; rw [hab, h1]
        · right; right; simp [jsLtL, hab, h1]
      · right; right; simp [jsLtL, h]

/-- Sorting relation underlying the JS sort, as a proposition. -/
def sortRel (a b : String) : Prop :=
  jsLe a b = true

instance : DecidableRel sortRel := fun a b => by
  unfold sortRel; infer_instance

theorem sortRel_iff (a b : String) :
    sortRel a b ↔ jsLtL b.data a.data = false := by
  unfold sortRel jsLe jsLt
  cases h : jsLtL b.data a.data <;> simp [h]

theorem sortRel_refl (a : String) : sortRel a a := by
  rw [sortRel_iff]; exact jsLtL_irrefl a.data

theorem sortRel_antisymm {a b : String}
    (h1 : sortRel a b) (h2 : sortRel b a) : a = b := by
  rw [sortRel_iff] at h1 h2
  rcases jsLtL_trichotomy a.data b.data with h | h | h
  · rw [h] at h2; exact absurd h2 (by simp)
  · exact String.ext h
  · rw [h] at h1; exact absurd h1 (by simp)

instance : IsTotal String sortRel := by
  constructor
  intro a b
  rw [sortRel_iff, sortRel_iff]
  by_cases h : jsLtL b.data a.data = true
  · right
    cases hc : jsLtL a.data b.data with
    | false => rfl
    | true =>
        have := jsLtL_trans _ _ _ h hc
        rw [jsLtL_irrefl] at this
        exact absurd this (by simp)
  · left; simpa using h

instance : IsTrans String sortRel := by
  constructor
  intro a b c h1 h2
  rw [sortRel_iff] at h1 h2 ⊢
  cases hca : jsLtL c.data a.data with
  | false => rfl
  | true =>
      rcases jsLtL_trichotomy b.data c.data with h | h | h
      · have := jsLtL_trans _ _ _ h hca
        rw [this] at h1; exact absurd h1 (by simp)
      · rw [h] at h1; rw [hca] at h1; exact absurd h1 (by simp)
      · rw [h] at h2; exact absurd h2 (by simp)

/-- Translation of `children.sort()`: JavaScript sorts the child names by
code-unit lexicographic order.  Any sorted rearrangement is unique here
because `sortRel` is antisymmetric, so a structurally recursive insertion
sort is an exact model of the sorted result. -/
def sortChildren (children : List String) : List String :=
  List.insertionSort sortRel children

theorem sortChildren_sorted (children : List String) :
    List.Sorted sortRel (sortChildren children) :=
  List.sorted_insertionSort sortRel children

theorem sortChildren_perm (children : List String) :
    (sortChildren children).Perm children :=
  List.perm_insertionSort sortRel children

/-- Conversion a JS template literal applies to a possibly-`undefined`
string-valued expression, as in `` `${ctx.resourceName}/${ctx.seqZnode}` ``. -/
def jsStr (o : Option String) : String :=
  o.getD "undefined"

/-- Truthiness of a possibly-`undefined` JS number, as tested by
`if (ctx.maxRetryCount)`: `undefined` and `0` are falsy. -/
def jsTruthyNat : Option Nat → Bool
  | none => false
  | some n => ! (n == 0)

/-- Mutable context object `ctx` threaded through the source's callbacks.
Fields that the JavaScript leaves `undefined` until assigned are `Option`s.
`initialRetryWaitMs` and `ttl` are JS numbers, modelled as rationals. -/
structure Ctx where
  resourceName : String
  resourceId : String
  seqZnode : Option String := none
  acquiredResource : Option String := none
  lastChildId : Option String := none
  collisionCount : Option Nat := none
  maxRetryCount : Option Nat := none
  initialRetryWaitMs : ℚ := 0
  ttl : Option ℚ := none
deriving DecidableEq, Repr

/-- Observable effects of a callback: store calls, invocations of the
caller's callback `ctx.cb`, and events emitted on `ctx.events`. -/
inductive Event where
  | removeCall (path : String) (version : Int)
  | cbOk
  | cbErr (msg : String) (path : Option String)
  | emitTtlExpired (resourceId : String)
deriving DecidableEq, Repr

/-- Translation of `lockAcquired` (state part): sets
`ctx.acquiredResource` to `` `${ctx.resourceName}/${ctx.seqZnode}` `` and
reports success.  If `ctx.ttl` is set a TTL timer is armed whose firing
behaviour is `ttlFire` below. -/
def lockAcquired (ctx : Ctx) : Ctx :=
  { ctx with
    acquiredResource := some (ctx.resourceName ++ "/" ++ jsStr ctx.seqZnode) }

/-- Translation of `lockFailed`: if a sequential znode was created
(`ctx.seqZnode` set) it is removed first and the caller's callback runs
from the removal callback, which ignores the removal outcome
(`removeResult`); in either case the callback receives the error string
`'unable to acquire lock'`.  `reason` is the argument `err`, which the
source only logs. -/
def lockFailed (ctx : Ctx) (reason : String)
    (removeResult : Except String Unit) : List Event :=
  match ctx.seqZnode with
  | some z =>
    [Event.removeCall (ctx.resourceName ++ "/" ++ z) (-1),
     Event.cbErr "unable to acquire lock" none]
  | none => [Event.cbErr "unable to acquire lock" none]

/-- Translation of `m.unlock`: no-op success when `ctx.acquiredResource`
is unset; otherwise `remove(ctx.acquiredResource, -1)` is issued and on
success the field is deleted, on failure the callback receives
`'unable to unlock resource'` together with the path and the field is
kept.  `removeResult` is the store's answer to the remove call. -/
def unlock (ctx : Ctx) (removeResult : Except String Unit) :
    Ctx × List Event :=
  match ctx.acquiredResource with
  | none => (ctx, [Event.cbOk])
  | some p =>
    match removeResult with
    | .error _ =>
      (ctx, [Event.removeCall p (-1),
             Event.cbErr "unable to unlock resource" (some p)])
    | .ok _ =>
      ({ ctx with acquiredResource := none },
       [Event.removeCall p (-1), Event.cbOk])

/-- Translation of the TTL timer body armed in `lockAcquired`: when the
`setTimeout` fires it emits `ttlExpired` with the resource id and then
calls `m.unlock(ctx)`. -/
def ttlFire (ctx : Ctx) (removeResult : Except String Unit) :
    Ctx × List Event :=
  let r := unlock ctx removeResult
  (r.1, Event.emitTtlExpired ctx.resourceId :: r.2)

/-- Translation of the backoff cap computed in `exists`:
`maxDelay = min(2^collisionCount * initialRetryWaitMs,
initialRetryWaitMs * 10)`. -/
def backoffMaxDelay (collisionCount : Nat) (initialRetryWaitMs : ℚ) : ℚ :=
  min ((2 : ℚ) ^ collisionCount * initialRetryWaitMs)
    (initialRetryWaitMs * 10)

/-- Translation of `nextDelay = Math.floor(Math.random() * maxDelay)`;
`rand` stands for the value drawn by `Math.random()`. -/
def nextDelay (rand : ℚ) (collisionCount : Nat)
    (initialRetryWaitMs : ℚ) : ℤ :=
  ⌊rand * backoffMaxDelay collisionCount initialRetryWaitMs⌋

/-- Continuation invoked by a callback of the acquisition path: either the
success path `lockAcquired` ran (`acquired`), the session moved on to
`exists` (`waiting`), a callback re-enters `getChildren` (`relist`), the
failure path `lockFailed` runs with a reason (`failedStep`), a backoff
timer was scheduled (`sleep`), or nothing was done and the session keeps
waiting for its registered watch (`waitWatch`). -/
inductive Step where
  | acquired (ctx : Ctx)
  | waiting (ctx : Ctx)
  | relist (ctx : Ctx)
  | failedStep (ctx : Ctx) (reason : String)
  | sleep (ctx : Ctx) (delay : ℤ)
  | waitWatch (ctx : Ctx)
deriving DecidableEq, Repr

/-- Translation of the `getChildren` callback: on error the failure path
runs; otherwise the children are sorted, the lock is acquired exactly when
`ctx.seqZnode === sorted[0]`, and otherwise `ctx.lastChildId` becomes
`sorted[index - 1]` for `index` the result of `findIndex` (`-1` when
absent, out-of-range reads yielding `undefined` as in JS). -/
def getChildrenCb (ctx : Ctx) (res : Except String (List String)) : Step :=
  match res with
  | .error _ => .failedStep ctx "Failed to list ZNode children"
  | .ok children =>
    let sorted := sortChildren children
    if ctx.seqZnode = sorted.head? then
      .acquired (lockAcquired ctx)
    else
      let index : Int :=
        match sorted.findIdx? (fun e => some e == ctx.seqZnode) with
        | some i => (i : Int)
        | none => -1
      let lastChildId : Option String :=
        if index - 1 < 0 then none else sorted[(index - 1).toNat]?
      .waiting { ctx with lastChildId := lastChildId }

/-- Condition under which `exists` passes a watch function to
`client.exists`: `if (!ctx.maxRetryCount)`. -/
def existsHasWatch (ctx : Ctx) : Bool :=
  ! jsTruthyNat ctx.maxRetryCount

/-- Translation of the watch function registered by `exists`:
`watchFunc = () => getChildren(ctx)`. -/
def watchFire (ctx : Ctx) : Step :=
  .relist ctx

/-- Translation of the `exists` completion callback: on error the failure
path runs; if the watched node still exists and `ctx.maxRetryCount` is
truthy the retry counter is consulted (`collisionCount || 0`, failing when
`collisionCount > maxRetryCount`, otherwise sleeping for `nextDelay`);
with a falsy `maxRetryCount` nothing happens (the watch waits); if the
node no longer exists `getChildren` is re-entered. -/
def existsCb (ctx : Ctx) (res : Except String Bool) (rand : ℚ) : Step :=
  match res with
  | .error _ =>
    .failedStep ctx
      ("unable to check the existence of " ++ ctx.resourceName ++ "/" ++
        jsStr ctx.lastChildId)
  | .ok true =>
    if jsTruthyNat ctx.maxRetryCount then
      let cc := ctx.collisionCount.getD 0
      let ctx1 := { ctx with collisionCount := some cc }
      if cc > ctx.maxRetryCount.getD 0 then
        .failedStep ctx1
          ("Lock failed, retry count limit reached - " ++ toString cc)
      else
        .sleep ctx1 (nextDelay rand cc ctx.initialRetryWaitMs)
    else
      .waitWatch ctx
  | .ok false => .relist ctx

/-- Translation of the backoff timer body scheduled by `exists`:
`++ctx.collisionCount; return getChildren(ctx)`. -/
def retryFire (ctx : Ctx) : Step :=
  .relist { ctx with collisionCount := ctx.collisionCount.map (· + 1) }

/-- Context with the `maxRetryCount` field erased, for comparing the
behaviour of a session configured with `maxRetryCount: 0` against one
with the option absent. -/
def Ctx.clearRetry (ctx : Ctx) : Ctx :=
  { ctx with maxRetryCount := none }

/-- Erases the `maxRetryCount` field from the context carried by a step. -/
def Step.clearRetry : Step → Step
  | .acquired c => .acquired c.clearRetry
  | .waiting c => .waiting c.clearRetry
  | .relist c => .relist c.clearRetry
  | .failedStep c reason => .failedStep c.clearRetry reason
  | .sleep c d => .sleep c.clearRetry d
  | .waitWatch c => .waitWatch c.clearRetry

/-- Session state for the polling scenario: resource with two children
`"a"` (the still-present predecessor) and `"b"` (this session's node),
`maxRetryCount = N`, collision counter `c`. -/
def pollCtx (N : Nat) (c : Option Nat) : Ctx :=
  { resourceName := "locks-r", resourceId := "x", seqZnode := some "b",
    lastChildId := some "a", collisionCount := c, maxRetryCount := some N,
    initialRetryWaitMs := 1 }

/-- Polling loop of the bounded-retry mode, iterating the source's
`exists` callback, retry timer and `getChildren` callback while the
watched predecessor keeps existing.  Returns the number of retry timers
fired (each re-entering `getChildren` for a rank re-check) and the failure
reason, if the loop ended in `lockFailed` within `fuel` rounds. -/
def pollSteps : Nat → Ctx → List String → ℚ → Nat × Option String
  | 0, _, _, _ => (0, none)
  | fuel + 1, ctx, children, rand =>
    match existsCb ctx (.ok true) rand with
    | .failedStep _ reason => (0, some reason)
    | .sleep ctx1 _ =>
      match retryFire ctx1 with
      | .relist ctx2 =>
        match getChildrenCb ctx2 (.ok children) with
        | .waiting ctx3 =>
          let rest := pollSteps fuel ctx3 children rand
          (rest.1 + 1, rest.2)
        | _ => (0, none)
      | _ => (0, none)
    | _ => (0, none)

/-- Session that has not (or no longer) acquired anything. -/
def idleCtx : Ctx :=
  { resourceName := "locks-r", resourceId := "x" }

/-- Session currently holding its acquired node. -/
def heldCtx : Ctx :=
  { resourceName := "locks-r", resourceId := "x",
    acquiredResource := some "locks-r/x0000000001" }

/-- Session whose acquisition attempt created the sequential znode
`x0000000002`. -/
def cleanupCtx : Ctx :=
  { resourceName := "locks-r", resourceId := "x",
    seqZnode := some "x0000000002" }

/-- Session that acquired with a TTL configured. -/
def ttlCtx : Ctx :=
  { resourceName := "locks-r", resourceId := "rid",
    acquiredResource := some "locks-r/rid0000000001", ttl := some 5000 }

/-- C2: when an acquisition attempt fails after its node was created, the
failure path first issues `remove(resourceName/seqZnode, -1)` and only then
invokes the caller's callback; the callback carries the failure report
`'unable to acquire lock'` unchanged for every removal outcome (the removal
callback ignores its error argument), and the callback is never the
success invocation. -/
theorem lp_failed_cleanup (ctx : Ctx) (z reason : String)
    (removeResult : Except String Unit) (hz : ctx.seqZnode = some z) :
    lockFailed ctx reason removeResult
      = [Event.removeCall (ctx.resourceName ++ "/" ++ z) (-1),
         Event.cbErr "unable to acquire lock" none]
    ∧ lockFailed ctx reason removeResult = lockFailed ctx reason (.ok ())
    ∧ Event.cbOk ∉ lockFailed ctx reason removeResult := by
  simp [lockFailed, hz]

theorem lp_failed_cleanup_witness :
    cleanupCtx.seqZnode = some "x0000000002"
    ∧ lockFailed cleanupCtx "Failed to list ZNode children" (.error "boom")
        = [Event.removeCall "locks-r/x0000000002" (-1),
           Event.cbErr "unable to acquire lock" none] :=
  ⟨rfl,
   (lp_failed_cleanup cleanupCtx "x0000000002"
      "Failed to list ZNode children" (.error "boom") rfl).1⟩

/-- C3: unlock is idempotent.  On a session whose `acquiredResource` is
unset it succeeds immediately, for every possible store answer, without
issuing any remove call; and after one successful release a second unlock
again succeeds with no error. -/
theorem lp_unlock_idempotent :
    (∀ (ctx : Ctx) (r : Except String Unit), ctx.acquiredResource = none →
        unlock ctx r = (ctx, [Event.cbOk])
        ∧ ∀ q v, Event.removeCall q v ∉ (unlock ctx r).2)
    ∧ ∀ (ctx : Ctx) (p : String) (r2 : Except String Unit),
        ctx.acquiredResource = some p →
        unlock (unlock ctx (.ok ())).1 r2
          = ((unlock ctx (.ok ())).1, [Event.cbOk]) := by
  constructor
  · intro ctx r h
    simp [unlock, h]
  · intro ctx p r2 h
    simp [unlock, h]

theorem lp_unlock_idempotent_witness :
    unlock idleCtx (.ok ()) = (idleCtx, [Event.cbOk])
    ∧ unlock (unlock heldCtx (.ok ())).1 (.ok ())
        = ((unlock heldCtx (.ok ())).1, [Event.cbOk]) :=
  ⟨(lp_unlock_idempotent.1 idleCtx (.ok ()) rfl).1,
   lp_unlock_idempotent.2 heldCtx "locks-r/x0000000001" (.ok ()) rfl⟩

/-- C4: a waiting session whose `exists` callback finds the watched node
gone re-enters `getChildren` (`relist`), as does a firing watch; no input
to the `exists` callback makes it transition directly to `Acquired`. -/
theorem lp_wait_revalidates (ctx : Ctx) :
    (∀ r : ℚ, existsCb ctx (.ok false) r = .relist ctx)
    ∧ watchFire ctx = .relist ctx
    ∧ ∀ (res : Except String Bool) (r : ℚ) (c : Ctx),
        existsCb ctx res r ≠ .acquired c := by
  refine ⟨fun r => rfl, rfl, ?_⟩
  intro res r c
  match res with
  | .error e => simp [existsCb]
  | .ok false => simp [existsCb]
  | .ok true =>
    simp only [existsCb]
    by_cases h : jsTruthyNat ctx.maxRetryCount
    · simp only [h, if_true]
      split <;> simp
    · simp [h]

theorem lp_wait_revalidates_witness :
    existsCb idleCtx (.ok false) 0 = .relist idleCtx :=
  (lp_wait_revalidates idleCtx).1 0

/-- C5 counterexample: a clean release does not cancel the pending TTL
action.  For the held session `ttlCtx`, after a successful `unlock` the
TTL timer still fires and still emits the `ttlExpired` event, so a
forced-release effect is observable after the clean release. -/
theorem lp_ttl_not_cancelled_cex :
    Event.emitTtlExpired "rid"
      ∈ (ttlFire (unlock ttlCtx (.ok ())).1 (.ok ())).2 := by
  decide

/-- C5 (amended): after a clean release (`acquiredResource` unset), the
later TTL firing performs no store removal — the forced `unlock` inside it
is a no-op on the store — but the timer is not disarmed: it still emits
the `ttlExpired` notification and invokes the session's stored callback. -/
theorem lp_ttl_after_release (ctx : Ctx) (r : Except String Unit)
    (h : ctx.acquiredResource = none) :
    ttlFire ctx r = (ctx, [Event.emitTtlExpired ctx.resourceId, Event.cbOk])
    ∧ ∀ q v, Event.removeCall q v ∉ (ttlFire ctx r).2 := by
  simp [ttlFire, unlock, h]

theorem lp_ttl_after_release_witness :
    ttlFire idleCtx (.ok ())
      = (idleCtx, [Event.emitTtlExpired "x", Event.cbOk]) :=
  (lp_ttl_after_release idleCtx (.ok ()) rfl).1

/-- C7: for a `Math.random()` draw in `[0, 1)` and a positive
`initialRetryWaitMs`, the computed backoff delay lies in
`[0, min(2^collisionCount * initialRetryWaitMs,
10 * initialRetryWaitMs)]`. -/
theorem lp_backoff_bounds (rand : ℚ) (c : Nat) (w : ℚ)
    (h0 : 0 ≤ rand) (h1 : rand < 1) (hw : 0 < w) :
    0 ≤ nextDelay rand c w
    ∧ (nextDelay rand c w : ℚ) ≤ min ((2 : ℚ) ^ c * w) (10 * w) := by
  have hmax : 0 ≤ backoffMaxDelay c w := by
    unfold backoffMaxDelay
    apply le_min <;> positivity
  constructor
  · unfold nextDelay
    rw [Int.floor_nonneg]
    exact mul_nonneg h0 hmax
  · have hfl : (nextDelay rand c w : ℚ) ≤ rand * backoffMaxDelay c w :=
      Int.floor_le _
    have hle : rand * backoffMaxDelay c w ≤ backoffMaxDelay c w :=
      mul_le_of_le_one_left hmax (le_of_lt h1)
    have h2 : (nextDelay rand c w : ℚ) ≤ backoffMaxDelay c w :=
      le_trans hfl hle
    unfold backoffMaxDelay at h2
    rwa [mul_comm w 10] at h2

theorem lp_backoff_bounds_witness :
    0 ≤ nextDelay (1 / 2) 3 100
    ∧ (nextDelay (1 / 2) 3 100 : ℚ) ≤ min ((2 : ℚ) ^ 3 * 100) (10 * 100) :=
  lp_backoff_bounds (1 / 2) 3 100 (by norm_num) (by norm_num) (by norm_num)

/-- C8: when the held session's remove fails during unlock, the callback
receives the error `'unable to unlock resource'` together with the path
that failed to release, and `acquiredResource` is left set, so the
session still appears held. -/
theorem lp_unlock_failure_keeps_held (ctx : Ctx) (p e : String)
    (hp : ctx.acquiredResource = some p) :
    unlock ctx (.error e)
      = (ctx, [Event.removeCall p (-1),
               Event.cbErr "unable to unlock resource" (some p)])
    ∧ (unlock ctx (.error e)).1.acquiredResource = some p := by
  simp [unlock, hp]

theorem lp_unlock_failure_keeps_held_witness :
    unlock heldCtx (.error "CONNECTION_LOSS")
      = (heldCtx,
         [Event.removeCall "locks-r/x0000000001" (-1),
          Event.cbErr "unable to unlock resource"
            (some "locks-r/x0000000001")]) :=
  (lp_unlock_failure_keeps_held heldCtx "locks-r/x0000000001"
    "CONNECTION_LOSS" rfl).1

/-- C9 counterexample: a `NO_NODE` ("not found") answer to the remove
issued by unlock is not treated as already-released: on the concrete held
session the callback reports `'unable to unlock resource'`, success is
never signalled, and the held state is not cleared. -/
theorem lp_notfound_cex :
    (unlock heldCtx (.error "NO_NODE")).2
      = [Event.removeCall "locks-r/x0000000001" (-1),
         Event.cbErr "unable to unlock resource"
           (some "locks-r/x0000000001")]
    ∧ Event.cbOk ∉ (unlock heldCtx (.error "NO_NODE")).2
    ∧ (unlock heldCtx (.error "NO_NODE")).1.acquiredResource
        = some "locks-r/x0000000001" := by
  decide

/-- C9 (amended): a "not found" error from the store's remove during
unlock is treated like any other removal failure: unlock reports
`'unable to unlock resource'` with the path and leaves `acquiredResource`
set; it is not special-cased as already-released. -/
theorem lp_notfound_failure (ctx : Ctx) (p : String)
    (hp : ctx.acquiredResource = some p) :
    unlock ctx (.error "NO_NODE")
      = (ctx, [Event.removeCall p (-1),
               Event.cbErr "unable to unlock resource" (some p)])
    ∧ (unlock ctx (.error "NO_NODE")).1.acquiredResource = some p := by
  simp [unlock, hp]

theorem lp_notfound_failure_witness :
    unlock heldCtx (.error "NO_NODE")
      = (heldCtx,
         [Event.removeCall "locks-r/x0000000001" (-1),
          Event.cbErr "unable to unlock resource"
            (some "locks-r/x0000000001")]) :=
  (lp_notfound_failure heldCtx "locks-r/x0000000001" rfl).1

/-- C10: with `maxRetryCount` equal to `0` (falsy in JS) the session
behaves exactly as when the option is absent: the `exists` call registers
a watch, the `exists` callback's behaviour coincides with the
option-absent behaviour on every input (so the backoff controller and the
retry-limit check are never consulted), and a still-existing predecessor
leaves the session waiting on its watch. -/
theorem lp_zero_retry_watch_mode (ctx : Ctx) :
    (existsHasWatch { ctx with maxRetryCount := some 0 } = true
      ∧ existsHasWatch { ctx with maxRetryCount := none } = true)
    ∧ (∀ (res : Except String Bool) (r : ℚ),
        (existsCb { ctx with maxRetryCount := some 0 } res r).clearRetry
          = existsCb { ctx with maxRetryCount := none } res r)
    ∧ ∀ r : ℚ,
        existsCb { ctx with maxRetryCount := some 0 } (.ok true) r
          = .waitWatch { ctx with maxRetryCount := some 0 } := by
  refine ⟨⟨rfl, rfl⟩, ?_, fun r => rfl⟩
  intro res r
  match res with
  | .error e => rfl
  | .ok true => rfl
  | .ok false => rfl

theorem lp_zero_retry_watch_mode_witness :
    existsCb { idleCtx with maxRetryCount := some 0 } (.ok true) 0
      = .waitWatch { idleCtx with maxRetryCount := some 0 } :=
  (lp_zero_retry_watch_mode idleCtx).2.2 0

theorem existsCb_poll_sleep (N : Nat) (co : Option Nat) (hN : 1 ≤ N)
    (hc : ¬ co.getD 0 > N) :
    existsCb (pollCtx N co) (.ok true) 0
      = .sleep (pollCtx N (some (co.getD 0))) (nextDelay 0 (co.getD 0) 1) := by
  have hbeq : (N == 0) = false := by
    cases N with
    | zero => exact absurd hN (by omega)
    | succ n => rfl
  simp [existsCb, pollCtx, jsTruthyNat, hbeq, hc]

theorem existsCb_poll_fail (N : Nat) (co : Option Nat) (hN : 1 ≤ N)
    (hc : co.getD 0 > N) :
    existsCb (pollCtx N co) (.ok true) 0
      = .failedStep (pollCtx N (some (co.getD 0)))
          ("Lock failed, retry count limit reached - "
            ++ toString (co.getD 0)) := by
  have hbeq : (N == 0) = false := by
    cases N with
    | zero => exact absurd hN (by omega)
    | succ n => rfl
  simp [existsCb, pollCtx, jsTruthyNat, hbeq, hc]

theorem pollSteps_succ_fail (N c f : Nat) (hN : 1 ≤ N) (hc : c > N) :
    pollSteps (f + 1) (pollCtx N (some c)) ["a", "b"] 0
      = (0, some ("Lock failed, retry count limit reached - "
          ++ toString c)) := by
  simp only [pollSteps]
  rw [existsCb_poll_fail N (some c) hN (by simpa using hc)]
  rfl

theorem pollSteps_succ_sleep (N c f : Nat) (hN : 1 ≤ N) (hc : ¬ c > N) :
    pollSteps (f + 1) (pollCtx N (some c)) ["a", "b"] 0
      = ((pollSteps f (pollCtx N (some (c + 1))) ["a", "b"] 0).1 + 1,
         (pollSteps f (pollCtx N (some (c + 1))) ["a", "b"] 0).2) := by
  simp only [pollSteps]
  rw [existsCb_poll_sleep N (some c) hN (by simpa using hc)]
  rfl

theorem pollSteps_succ_none (N f : Nat) (hN : 1 ≤ N) :
    pollSteps (f + 1) (pollCtx N none) ["a", "b"] 0
      = ((pollSteps f (pollCtx N (some 1)) ["a", "b"] 0).1 + 1,
         (pollSteps f (pollCtx N (some 1)) ["a", "b"] 0).2) := by
  simp only [pollSteps]
  rw [existsCb_poll_sleep N none hN (by simp)]
  rfl

theorem pollSteps_count (N : Nat) (hN : 1 ≤ N) :
    ∀ d c fuel, c + d = N + 1 → N + 1 - c < fuel →
      pollSteps fuel (pollCtx N (some c)) ["a", "b"] 0
        = (d, some ("Lock failed, retry count limit reached - "
            ++ toString (N + 1))) := by
  intro d
  induction d with
  | zero =>
    intro c fuel hc hfuel
    obtain ⟨f, rfl⟩ : ∃ f, fuel = f + 1 := ⟨fuel - 1, by omega⟩
    have hcv : c = N + 1 := by omega
    subst hcv
    rw [pollSteps_succ_fail N (N + 1) f hN (by omega)]
  | succ d ih =>
    intro c fuel hc hfuel
    obtain ⟨f, rfl⟩ : ∃ f, fuel = f + 1 := ⟨fuel - 1, by omega⟩
    rw [pollSteps_succ_sleep N c f hN (by omega)]
    rw [ih (c + 1) f (by omega) (by omega)]

/-- C6: in polling mode the retry timer increments `collisionCount` by
exactly one per scheduled retry; the `exists` callback reports the
retry-limit failure exactly when `collisionCount > maxRetryCount`; and in
the scenario where the watched predecessor exists at every check, a
session configured with `maxRetryCount = N` fires exactly `N + 1` retry
timers — each re-entering `getChildren` for a rank re-check — before the
failure is reported. -/
theorem lp_retry_semantics (N : Nat) (hN : 1 ≤ N) :
    (∀ (ctx : Ctx) (c : Nat), ctx.collisionCount = some c →
        retryFire ctx = .relist { ctx with collisionCount := some (c + 1) })
    ∧ (∀ (ctx : Ctx) (r : ℚ), ctx.maxRetryCount = some N →
        ((∃ ctx2 reason, existsCb ctx (.ok true) r = .failedStep ctx2 reason)
          ↔ N < ctx.collisionCount.getD 0))
    ∧ pollSteps (N + 2) (pollCtx N none) ["a", "b"] 0
        = (N + 1,
           some ("Lock failed, retry count limit reached - "
             ++ toString (N + 1))) := by
  have hbeq : (N == 0) = false := by
    cases N with
    | zero => exact absurd hN (by omega)
    | succ n => rfl
  refine ⟨?_, ?_, ?_⟩
  · intro ctx c h
    simp [retryFire, h]
  · intro ctx r hm
    constructor
    · rintro ⟨ctx2, reason, h⟩
      by_contra hlt
      have hle : ¬ ctx.collisionCount.getD 0 > N := by omega
      simp [existsCb, hm, jsTruthyNat, hbeq, hle] at h
    · intro hlt
      exact ⟨{ ctx with collisionCount := some (ctx.collisionCount.getD 0) },
        "Lock failed, retry count limit reached - "
          ++ toString (ctx.collisionCount.getD 0),
        by simp [existsCb, hm, jsTruthyNat, hbeq, hlt]⟩
  · rw [show N + 2 = (N + 1) + 1 from rfl, pollSteps_succ_none N (N + 1) hN]
    rw [pollSteps_count N hN N 1 (N + 1) (by omega) (by omega)]

theorem lp_retry_semantics_witness :
    (1 : Nat) ≤ 2
    ∧ pollSteps 4 (pollCtx 2 none) ["a", "b"] 0
        = (3, some "Lock failed, retry count limit reached - 3") :=
  ⟨by omega, (lp_retry_semantics 2 (by omega)).2.2⟩

theorem findIdx_first (s : String) :
    ∀ l : List String, s ∈ l →
      ∃ i, List.findIdx? (fun e => some e == some s) l = some i
        ∧ l[i]? = some s ∧ ∀ j, j < i → l[j]? ≠ some s
  | [], h => absurd h (by simp)
  | a :: t, h => by
    by_cases ha : a = s
    · refine ⟨0, ?_, ?_, ?_⟩
      · rw [List.findIdx?_cons]
        simp [ha]
      · simp [ha]
      · intro j hj
        exact absurd hj (Nat.not_lt_zero j)
    · have hs : s ∈ t := by
        rcases List.mem_cons.mp h with h1 | h1
        · exact absurd h1.symm ha
        · exact h1
      obtain ⟨i, hfind, hget, hfirst⟩ := findIdx_first s t hs
      refine ⟨i + 1, ?_, ?_, ?_⟩
      · rw [List.findIdx?_cons]
        have hpa : (some a == some s) = false := by simp [ha]
        rw [hpa]
        rw [if_neg (by simp)]
        rw [List.findIdx?_succ, hfind]
        rfl
      · simpa using hget
      · intro j hj
        cases j with
        | zero => simp [ha]
        | succ k =>
          have := hfirst k (by omega)
          simpa using this

theorem sorted_head_iff_least (children : List String) (s : String)
    (hmem : s ∈ children) :
    (sortChildren children).head? = some s ↔ ∀ c ∈ children, sortRel s c := by
  have hp := sortChildren_perm children
  have hsort := sortChildren_sorted children
  have hmem2 : s ∈ sortChildren children := hp.mem_iff.mpr hmem
  cases hcase : sortChildren children with
  | nil => rw [hcase] at hmem2; exact absurd hmem2 (by simp)
  | cons x t =>
    rw [hcase] at hsort hmem2 hp
    constructor
    · intro hhead c hc
      have hx : x = s := by simpa using hhead
      subst hx
      rcases List.mem_cons.mp (hp.mem_iff.mpr hc) with h1 | h1
      · rw [h1]; exact sortRel_refl x
      · exact List.rel_of_sorted_cons hsort c h1
    · intro hall
      have h1 : sortRel s x := hall x (hp.mem_iff.mp (by simp))
      have h2 : sortRel x s := by
        rcases List.mem_cons.mp hmem2 with h1 | h1
        · rw [← h1]; exact sortRel_refl s
        · exact List.rel_of_sorted_cons hsort s h1
      rw [sortRel_antisymm h2 h1]
      rfl

/-- C1: for an acquisition attempt whose created node `s` occurs in the
listed children, the `getChildren` callback transitions to `Acquired`
(running `lockAcquired`, which sets `acquiredResource` and reports
success) if and only if `s` sorts no later than every listed child — i.e.
`s` is the lexicographically smallest element of the sorted child list;
otherwise it proceeds to `exists` (`Waiting`) with `lastChildId` set to
the element immediately preceding the first occurrence of `s` in the
sorted list, and that preceding sibling exists. -/
theorem lp_acquired_iff_lowest (ctx : Ctx) (children : List String) (s : String)
    (hseq : ctx.seqZnode = some s) (hmem : s ∈ children) :
    (getChildrenCb ctx (.ok children) = .acquired (lockAcquired ctx)
      ↔ ∀ c ∈ children, sortRel s c)
    ∧ ((¬ ∀ c ∈ children, sortRel s c) →
        ∃ i, 0 < i
          ∧ (sortChildren children)[i]? = some s
          ∧ (∀ j, j < i → (sortChildren children)[j]? ≠ some s)
          ∧ ((sortChildren children)[i - 1]?).isSome
          ∧ getChildrenCb ctx (.ok children)
              = .waiting { ctx with
                  lastChildId := (sortChildren children)[i - 1]? }) := by
  have hleast := sorted_head_iff_least children s hmem
  by_cases hcond : ctx.seqZnode = (sortChildren children).head?
  · have hres : getChildrenCb ctx (.ok children) = .acquired (lockAcquired ctx) := by
      simp only [getChildrenCb]
      rw [if_pos hcond]
    have hall : ∀ c ∈ children, sortRel s c := by
      apply hleast.mp
      rw [← hseq]
      exact hcond.symm
    exact ⟨⟨fun _ => hall, fun _ => hres⟩, fun hn => absurd hall hn⟩
  · have hmem2 : s ∈ sortChildren children :=
      (sortChildren_perm children).mem_iff.mpr hmem
    obtain ⟨i, hfind, hget, hfirst⟩ := findIdx_first s _ hmem2
    have hi : 0 < i := by
      rcases Nat.eq_zero_or_pos i with h0 | h
      · subst h0
        exact absurd (by rw [hseq, List.head?_eq_getElem?, hget]) hcond
      · exact h
    have hlen : i < (sortChildren children).length := by
      rcases List.getElem?_eq_some_iff.mp hget with ⟨h, _⟩
      exact h
    have hsomeprev : ((sortChildren children)[i - 1]?).isSome := by
      have h : i - 1 < (sortChildren children).length := by omega
      simp [List.getElem?_eq_getElem h]
    have hcond2 : ¬ some s = (sortChildren children).head? := by
      rw [← hseq]; exact hcond
    have hni : ¬ ((i : Int) - 1 < 0) := by omega
    have htn : ((i : Int) - 1).toNat = i - 1 := by omega
    have hres : getChildrenCb ctx (.ok children)
        = .waiting { ctx with lastChildId := (sortChildren children)[i - 1]? } := by
      simp only [getChildrenCb, hseq]
      rw [if_neg hcond2]
      simp only [hfind]
      rw [if_neg hni, htn]
    refine ⟨⟨?_, ?_⟩, fun _ => ⟨i, hi, hget, hfirst, hsomeprev, hres⟩⟩
    · intro h
      rw [hres] at h
      exact absurd h (by simp)
    · intro hall
      exact absurd (hleast.mpr hall).symm hcond2

/-- Session whose created sequential znode is named `"b"`. -/
def rankCtx : Ctx :=
  { resourceName := "locks-r", resourceId := "x", seqZnode := some "b" }

theorem lp_acquired_iff_lowest_witness :
    rankCtx.seqZnode = some "b"
    ∧ "b" ∈ ["b", "a"]
    ∧ (getChildrenCb rankCtx (.ok ["b", "a"]) = .acquired (lockAcquired rankCtx)
        ↔ ∀ c ∈ ["b", "a"], sortRel "b" c) :=
  ⟨rfl, by simp,
   (lp_acquired_iff_lowest rankCtx ["b", "a"] "b" rfl (by simp)).1⟩

end LockProtocol
